import Mathlib

/-!
Verification of the Azure Log Analytics Data Collector client
(`azuredatacollector/datacollector.py`).

The development shallowly embeds the three procedures the specification
documents:

* the batcher `DataCollectorClient.__batch`, which walks the rows in order,
  accumulating them into `tmp` while the running total of `len(str(row))`
  stays at or below `self._max_batch_size`, closing the current batch and
  starting a new one with the overflowing row otherwise, and finally
  appending the pending batch when `batch_size` is non-zero;
* the signer `DataCollectorClient.__build_authorization_headers` together
  with `__get_xmsdate_str`, down to the byte level (UTF-8, base64,
  HMAC-SHA-256, RFC-1123 date formatting);
* the orchestrator `DataCollectorClient.post_data`, which serializes each
  batch with `json.dumps`, posts it, raises `DataCollectorError` on a
  non-200 status and otherwise records the row count of the batch.

Machine integers are modelled as `Nat` with explicit reduction modulo
`2 ^ 32` where the Python code relies on fixed-width arithmetic (SHA-256
only; the batcher's counters are ordinary unbounded Python ints).
-/

/-! ## The batcher state

`__batch` maintains three locals: `batches` (closed batches), `tmp` (the
batch being accumulated) and `batch_size` (the running total of
`len(str(row))` over `tmp`). -/

/-- State of the loop inside `__batch`: the list of closed batches, the
batch currently being filled, and the running size accumulator. -/
structure BatchSt (α : Type) where
  batches : List (List α)
  tmp : List α
  bsize : Nat
deriving Repr, DecidableEq

/-- One iteration of the `for row in data` loop of `__batch`, parametric in
the size measure `sz` (the code uses `len(str(row))`) and the ceiling
`maxB` (`self._max_batch_size`). -/
def batchStep (sz : α → Nat) (maxB : Nat) (st : BatchSt α) (row : α) : BatchSt α :=
  let rowSz := sz row
  if st.bsize + rowSz ≤ maxB then
    ⟨st.batches, st.tmp ++ [row], st.bsize + rowSz⟩
  else
    ⟨st.batches ++ [st.tmp], [row], rowSz⟩

/-- The whole loop of `__batch`, started from the initial state
`batches = []`, `tmp = []`, `batch_size = 0`. -/
def batchRun (sz : α → Nat) (maxB : Nat) (data : List α) : BatchSt α :=
  data.foldl (batchStep sz maxB) ⟨[], [], 0⟩

/-- `__batch` itself: run the loop, then append the pending batch exactly
when `batch_size` is truthy (non-zero). -/
def batchList (sz : α → Nat) (maxB : Nat) (data : List α) : List (List α) :=
  let st := batchRun sz maxB data
  if st.bsize ≠ 0 then st.batches ++ [st.tmp] else st.batches

/-! ## Rows

The repository's rows are Python dicts with string keys and string values
(`{"col": "data"}` in the tests).  A row is embedded as its association
list.  The batcher measures a row by `len(str(row))`; `str` of such a dict
is `{'k': 'v', ...}` (single-quoted, `, ` between items, `: ` after each
key), which `pyStrRow` reproduces for strings that need no escaping — the
only kind the repository uses. -/

/-- A row: a Python dict with string keys and values, as an association
list in insertion order. -/
abbrev Row := List (String × String)

/-- Python `repr` of a plain string (no quotes or backslashes inside):
the string wrapped in single quotes. -/
def pyRepr (s : String) : String := "\x27" ++ s ++ "\x27"

/-- Python `str` of a dict of plain strings: `\x7b'k': 'v', ...\x7d`. -/
def pyStrRow (row : Row) : String :=
  "\x7b" ++ String.intercalate ", "
    (row.map (fun kv => pyRepr kv.1 ++ ": " ++ pyRepr kv.2)) ++ "\x7d"

/-- `len(str(row))`, the size measure used by `__batch` (line 105 of
`datacollector.py`). -/
def rowStrSize (row : Row) : Nat := (pyStrRow row).length

/-- `__batch` on the repository's rows. -/
def pyBatch (maxB : Nat) (data : List Row) : List (List Row) :=
  batchList rowStrSize maxB data

/-- `json.dumps` of a plain string: wrapped in double quotes. -/
def jsonStr (s : String) : String := "\"" ++ s ++ "\""

/-- `json.dumps` of a row (default separators): `\x7b"k": "v", ...\x7d`. -/
def jsonDumpsRow (row : Row) : String :=
  "\x7b" ++ String.intercalate ", "
    (row.map (fun kv => jsonStr kv.1 ++ ": " ++ jsonStr kv.2)) ++ "\x7d"

/-- `json.dumps` of a batch, the body `post_data` actually transmits
(line 179 of `datacollector.py`): `[row, row, ...]` with `, ` separators. -/
def jsonDumpsBatch (b : List Row) : String :=
  "[" ++ String.intercalate ", " (b.map jsonDumpsRow) ++ "]"

/-- The row `{"col": "data"}` used throughout the repository's tests. -/
def row0 : Row := [("col", "data")]

example : rowStrSize row0 = 15 := by decide
example : (jsonDumpsRow row0).length = 15 := by decide
example : (jsonDumpsBatch [row0, row0]).length = 34 := by decide
example : pyBatch 33 [row0, row0, row0] = [[row0, row0], [row0]] := by decide
example : pyBatch 0 [row0] = [[], [row0]] := by decide
example : pyBatch 3000 [row0] = [[row0]] := by decide

/-! ## Structural lemmas about the batcher loop -/

/-- Concatenating the closed batches and the pending batch of the loop
state recovers exactly the rows processed so far, in order: each
iteration either appends the row to `tmp` or moves `tmp` whole into
`batches` and restarts `tmp` with the row. -/
theorem batchRun_join (sz : α → Nat) (maxB : Nat) (data : List α) (st : BatchSt α) :
    (data.foldl (batchStep sz maxB) st).batches.flatten ++ (data.foldl (batchStep sz maxB) st).tmp
      = st.batches.flatten ++ st.tmp ++ data := by
  induction data generalizing st with
  | nil => simp
  | cons r rest ih =>
    simp only [List.foldl_cons]
    rw [ih]
    unfold batchStep
    by_cases h : st.bsize + sz r ≤ maxB
    · simp [h, List.append_assoc]
    · simp [h, List.append_assoc]

/-- The accumulator `batch_size` always equals the total size of the
pending batch `tmp`. -/
theorem batchRun_bsize (sz : α → Nat) (maxB : Nat) (data : List α) (st : BatchSt α)
    (h : st.bsize = (st.tmp.map sz).sum) :
    (data.foldl (batchStep sz maxB) st).bsize
      = ((data.foldl (batchStep sz maxB) st).tmp.map sz).sum := by
  induction data generalizing st with
  | nil => exact h
  | cons r rest ih =>
    simp only [List.foldl_cons]
    apply ih
    simp only [batchStep]
    split
    · simp [h]
    · simp

/-- Once a batch is closed it stays in `batches` for the rest of the loop. -/
theorem batchRun_mem_mono (sz : α → Nat) (maxB : Nat) (data : List α) (st : BatchSt α)
    (b : List α) (h : b ∈ st.batches) :
    b ∈ (data.foldl (batchStep sz maxB) st).batches := by
  induction data generalizing st with
  | nil => exact h
  | cons r rest ih =>
    simp only [List.foldl_cons]
    apply ih
    unfold batchStep
    by_cases hc : st.bsize + sz r ≤ maxB
    · simpa [hc] using h
    · simp [hc]
      exact Or.inl h

/-- A batch satisfies the size discipline of `__batch`: its total size (as
measured by `sz`) is within the ceiling, or it is a single row that alone
exceeds the ceiling. -/
def GoodBatch (sz : α → Nat) (maxB : Nat) (b : List α) : Prop :=
  (b.map sz).sum ≤ maxB ∨ ∃ r, b = [r] ∧ maxB < sz r

/-- The loop preserves the size discipline: every closed batch and the
pending batch are `GoodBatch` throughout. -/
theorem batchRun_good (sz : α → Nat) (maxB : Nat) (data : List α) (st : BatchSt α)
    (hs : st.bsize = (st.tmp.map sz).sum)
    (hb : ∀ b ∈ st.batches, GoodBatch sz maxB b)
    (ht : GoodBatch sz maxB st.tmp) :
    (∀ b ∈ (data.foldl (batchStep sz maxB) st).batches, GoodBatch sz maxB b) ∧
      GoodBatch sz maxB (data.foldl (batchStep sz maxB) st).tmp := by
  induction data generalizing st with
  | nil => exact ⟨hb, ht⟩
  | cons r rest ih =>
    simp only [List.foldl_cons]
    simp only [batchStep]
    split
    · next hc =>
      apply ih
      · simp [hs]
      · exact hb
      · left
        simp
        rw [← hs]
        exact hc
    · next hc =>
      apply ih
      · simp
      · intro b hbmem
        rcases List.mem_append.mp hbmem with hl | hr
        · exact hb b hl
        · rw [List.mem_singleton.mp hr]
          exact ht
      · by_cases hrow : sz r ≤ maxB
        · left; simpa using hrow
        · right; exact ⟨r, rfl, Nat.lt_of_not_le hrow⟩

/-- Once the pending batch is exactly an oversized singleton `[r]`, it
either ends up among the closed batches or is still pending (with
`batch_size = sz r`) when the loop ends: no later row can join it, since
`batch_size` already exceeds the ceiling. -/
theorem batchRun_oversized_stays (sz : α → Nat) (maxB : Nat) (r : α)
    (hr : maxB < sz r) (data : List α) (st : BatchSt α)
    (h1 : st.tmp = [r]) (h2 : st.bsize = sz r) :
    [r] ∈ (data.foldl (batchStep sz maxB) st).batches ∨
      ((data.foldl (batchStep sz maxB) st).tmp = [r] ∧
        (data.foldl (batchStep sz maxB) st).bsize = sz r) := by
  induction data generalizing st with
  | nil => exact Or.inr ⟨h1, h2⟩
  | cons x rest ih =>
    simp only [List.foldl_cons]
    have hc : ¬ (st.bsize + sz x ≤ maxB) := by
      rw [h2]
      intro hle
      exact absurd (Nat.le_trans (Nat.le_add_right (sz r) (sz x)) hle) (Nat.not_le.mpr hr)
    left
    apply batchRun_mem_mono
    simp only [batchStep]
    rw [if_neg hc]
    simp [h1]

/-- Any row whose size exceeds the ceiling reaches the loop's end as the
singleton `[r]`, closed or still pending. -/
theorem batchRun_oversized (sz : α → Nat) (maxB : Nat) (r : α)
    (hr : maxB < sz r) (data : List α) (st : BatchSt α) (hmem : r ∈ data) :
    [r] ∈ (data.foldl (batchStep sz maxB) st).batches ∨
      ((data.foldl (batchStep sz maxB) st).tmp = [r] ∧
        (data.foldl (batchStep sz maxB) st).bsize = sz r) := by
  induction data generalizing st with
  | nil => cases hmem
  | cons x rest ih =>
    simp only [List.foldl_cons]
    rcases List.mem_cons.mp hmem with heq | hrest
    · subst heq
      have hc : ¬ (st.bsize + sz r ≤ maxB) := by
        intro hle
        exact absurd (Nat.le_trans (Nat.le_add_left (sz r) st.bsize) hle)
          (Nat.not_le.mpr hr)
      apply batchRun_oversized_stays sz maxB r hr rest
      · simp [batchStep, hc]
      · simp [batchStep, hc]
    · exact ih (batchStep sz maxB st x) hrest

/-- The loop never produces an empty closed batch beyond the head
position: an empty batch can only be the very first one, pushed when the
first row already overflows an empty `tmp`. -/
theorem batchRun_tail_ne (sz : α → Nat) (maxB : Nat) (data : List α) (st : BatchSt α)
    (h1 : ∀ b ∈ st.batches.tail, b ≠ [])
    (h2 : st.tmp = [] → st.batches = []) :
    (∀ b ∈ (data.foldl (batchStep sz maxB) st).batches.tail, b ≠ []) ∧
      ((data.foldl (batchStep sz maxB) st).tmp = [] →
        (data.foldl (batchStep sz maxB) st).batches = []) := by
  induction data generalizing st with
  | nil => exact ⟨h1, h2⟩
  | cons r rest ih =>
    simp only [List.foldl_cons]
    simp only [batchStep]
    split
    · apply ih
      · exact h1
      · intro htmp
        exact absurd htmp (by simp)
    · apply ih
      · intro b hbmem
        rcases hst : st.batches with _ | ⟨b0, bs⟩
        · rw [hst] at hbmem
          simp at hbmem
        · rw [hst] at hbmem
          simp at hbmem
          rcases hbmem with hl | he
          · exact h1 b (by rw [hst]; exact hl)
          · subst he
            intro habs
            exact absurd (h2 habs) (by rw [hst]; exact List.cons_ne_nil b0 bs)
      · intro htmp
        exact absurd htmp (List.cons_ne_nil r [])

/-- If no closed batch is empty and the pending batch is non-empty, the
loop keeps it that way. -/
theorem batchRun_no_empty (sz : α → Nat) (maxB : Nat) (data : List α) (st : BatchSt α)
    (h1 : [] ∉ st.batches) (h2 : st.tmp ≠ []) :
    [] ∉ (data.foldl (batchStep sz maxB) st).batches ∧
      (data.foldl (batchStep sz maxB) st).tmp ≠ [] := by
  induction data generalizing st with
  | nil => exact ⟨h1, h2⟩
  | cons r rest ih =>
    simp only [List.foldl_cons]
    simp only [batchStep]
    split
    · apply ih
      · exact h1
      · simp
    · apply ih
      · intro habs
        rcases List.mem_append.mp habs with hl | hr
        · exact h1 hl
        · exact h2 (List.mem_singleton.mp hr).symm
      · exact List.cons_ne_nil r []

/-- Every row, being a Python dict, prints with at least its two braces:
its `len(str(row))` is positive. -/
theorem rowStrSize_pos (row : Row) : 0 < rowStrSize row := by
  unfold rowStrSize pyStrRow
  simp [String.length_append]
  exact Or.inr (by decide)

/-! ## Batcher-level consequences -/

/-- When every row has positive size, `__batch` partitions its input:
flattening the result gives back the data.  (Positivity rules out the
final `if batch_size:` guard dropping a pending batch of total size 0.) -/
theorem batchList_flatten (sz : α → Nat) (maxB : Nat) (data : List α)
    (hpos : ∀ r ∈ data, 0 < sz r) :
    (batchList sz maxB data).flatten = data := by
  have hj := batchRun_join sz maxB data ⟨[], [], 0⟩
  simp only [List.flatten_nil, List.nil_append] at hj
  have hb := batchRun_bsize sz maxB data ⟨[], [], 0⟩ (by simp)
  unfold batchList batchRun
  by_cases h : (data.foldl (batchStep sz maxB) (⟨[], [], 0⟩ : BatchSt α)).bsize ≠ 0
  · rw [if_pos h, List.flatten_append]
    simpa using hj
  · rw [if_neg h]
    have hz : (data.foldl (batchStep sz maxB) (⟨[], [], 0⟩ : BatchSt α)).bsize = 0 :=
      not_ne_iff.mp h
    have htmp : (data.foldl (batchStep sz maxB) (⟨[], [], 0⟩ : BatchSt α)).tmp = [] := by
      rcases he : (data.foldl (batchStep sz maxB) (⟨[], [], 0⟩ : BatchSt α)).tmp with _ | ⟨t, ts⟩
      · rfl
      · exfalso
        have htm : t ∈ data := by
          rw [← hj]
          refine List.mem_append_right _ ?_
          rw [he]
          exact List.mem_cons_self t ts
        have hpt := hpos t htm
        rw [he] at hb
        rw [hb] at hz
        simp at hz
        omega
    rw [htmp, List.append_nil] at hj
    exact hj

/-- Every batch `__batch` emits respects the size discipline: total
`len(str(row))` within the ceiling, or a lone oversized row. -/
theorem batchList_good (sz : α → Nat) (maxB : Nat) (data : List α) :
    ∀ b ∈ batchList sz maxB data, GoodBatch sz maxB b := by
  intro b hbm
  obtain ⟨hall, htmp⟩ := batchRun_good sz maxB data ⟨[], [], 0⟩ (by simp) (by simp)
    (Or.inl (by simp))
  unfold batchList batchRun at hbm
  by_cases h : (data.foldl (batchStep sz maxB) (⟨[], [], 0⟩ : BatchSt α)).bsize ≠ 0
  · rw [if_pos h] at hbm
    rcases List.mem_append.mp hbm with hl | hr
    · exact hall b hl
    · rw [List.mem_singleton.mp hr]
      exact htmp
  · rw [if_neg h] at hbm
    exact hall b hbm

/-- A row larger than the ceiling always comes out of `__batch` as its own
singleton batch. -/
theorem batchList_oversized (sz : α → Nat) (maxB : Nat) (r : α) (data : List α)
    (hover : maxB < sz r) (hmem : r ∈ data) :
    [r] ∈ batchList sz maxB data := by
  unfold batchList batchRun
  rcases batchRun_oversized sz maxB r hover data ⟨[], [], 0⟩ hmem with hl | ⟨ht, hbs⟩
  · by_cases h : (data.foldl (batchStep sz maxB) (⟨[], [], 0⟩ : BatchSt α)).bsize ≠ 0
    · rw [if_pos h]
      exact List.mem_append_left _ hl
    · rw [if_neg h]
      exact hl
  · have hnz : (data.foldl (batchStep sz maxB) (⟨[], [], 0⟩ : BatchSt α)).bsize ≠ 0 := by
      rw [hbs]
      omega
    rw [if_pos hnz]
    refine List.mem_append_right _ ?_
    rw [← ht]
    exact List.mem_singleton_self _

/-- Beyond its first element, the output of `__batch` contains no empty
batch: `tmp` restarts non-empty after every close, and the final `if
batch_size:` guard only appends a non-empty pending batch. -/
theorem batchList_tail_ne (sz : α → Nat) (maxB : Nat) (data : List α) :
    ∀ b ∈ (batchList sz maxB data).tail, b ≠ [] := by
  obtain ⟨ha, hpend⟩ := batchRun_tail_ne sz maxB data ⟨[], [], 0⟩ (by simp) (by simp)
  have hb := batchRun_bsize sz maxB data ⟨[], [], 0⟩ (by simp)
  unfold batchList batchRun
  by_cases h : (data.foldl (batchStep sz maxB) (⟨[], [], 0⟩ : BatchSt α)).bsize ≠ 0
  · rw [if_pos h]
    intro b hbm
    have htmp : (data.foldl (batchStep sz maxB) (⟨[], [], 0⟩ : BatchSt α)).tmp ≠ [] := by
      intro he
      rw [he] at hb
      simp at hb
      exact h hb
    rcases hsb : (data.foldl (batchStep sz maxB) (⟨[], [], 0⟩ : BatchSt α)).batches
      with _ | ⟨b0, bs⟩
    · rw [hsb] at hbm
      simp at hbm
    · rw [hsb] at hbm
      simp only [List.cons_append, List.tail_cons] at hbm
      rcases List.mem_append.mp hbm with hl | hr
      · exact ha b (by rw [hsb]; exact hl)
      · rw [List.mem_singleton.mp hr]
        exact htmp
  · rw [if_neg h]
    exact ha

/-- The output of `__batch` contains an empty batch exactly when the input
is non-empty and its first row already exceeds the ceiling (the loop then
pushes the still-empty `tmp` on its very first iteration). -/
theorem batchList_empty_mem (sz : α → Nat) (maxB : Nat) (data : List α) :
    [] ∈ batchList sz maxB data ↔ ∃ r rest, data = r :: rest ∧ maxB < sz r := by
  rcases data with _ | ⟨x, rest⟩
  · simp [batchList, batchRun]
  · by_cases hx : sz x ≤ maxB
    · have hstep : batchStep sz maxB ⟨[], [], 0⟩ x = ⟨[], [x], sz x⟩ := by
        simp [batchStep, hx]
      obtain ⟨hnb, hnt⟩ := batchRun_no_empty sz maxB rest ⟨[], [x], sz x⟩
        (by simp) (by simp)
      constructor
      · intro hmem
        exfalso
        unfold batchList batchRun at hmem
        rw [List.foldl_cons, hstep] at hmem
        by_cases h : (rest.foldl (batchStep sz maxB) (⟨[], [x], sz x⟩ : BatchSt α)).bsize ≠ 0
        · rw [if_pos h] at hmem
          rcases List.mem_append.mp hmem with hl | hr
          · exact hnb hl
          · exact hnt (List.mem_singleton.mp hr).symm
        · rw [if_neg h] at hmem
          exact hnb hmem
      · rintro ⟨r, rest2, heq, hover⟩
        exfalso
        have hrx : r = x := by
          injection heq with h1 h2
          exact h1.symm
        rw [hrx] at hover
        exact absurd hx (Nat.not_le.mpr hover)
    · have hover : maxB < sz x := Nat.lt_of_not_le hx
      constructor
      · intro _
        exact ⟨x, rest, rfl, hover⟩
      · intro _
        have hstep : batchStep sz maxB ⟨[], [], 0⟩ x = ⟨[[]], [x], sz x⟩ := by
          simp [batchStep, hx]
        have hmem : ([] : List α) ∈
            ((x :: rest).foldl (batchStep sz maxB)
              (⟨[], [], 0⟩ : BatchSt α)).batches := by
          rw [List.foldl_cons, hstep]
          exact batchRun_mem_mono sz maxB rest ⟨[[]], [x], sz x⟩ [] (by simp)
        unfold batchList batchRun
        by_cases h : (((x :: rest).foldl (batchStep sz maxB)
            (⟨[], [], 0⟩ : BatchSt α))).bsize ≠ 0
        · rw [if_pos h]
          exact List.mem_append_left _ hmem
        · rw [if_neg h]
          exact hmem

/-! ## The orchestrator `post_data`

`post_data` batches the rows, then for each batch serializes it with
`json.dumps`, signs and posts it, raises `DataCollectorError` when the
response status is not 200, and otherwise appends `len(batch)` to the
returned metric.  The HTTP exchange is modelled by an oracle giving the
status code and body text of the response to the i-th request issued.
The model returns the number of requests actually issued together with
either the error message (the exception's payload, built exactly as on
line 195 of `datacollector.py`) or the metric list. -/

/-- The message `DataCollectorError` is constructed with on a non-200
response. -/
def errorMessage (status : Nat) (text : String) : String :=
  "Error uploading, status code: " ++ toString status ++ ". " ++ text

/-- The `for batch in batched_data` loop of `post_data`: `i` counts the
requests issued so far, `metric` accumulates per-batch row counts. -/
def postBatches (resp : Nat → Nat × String) :
    List (List Row) → Nat → List Nat → Nat × Except String (List Nat)
  | [], i, metric => (i, Except.ok metric)
  | b :: rest, i, metric =>
    let r := resp i
    if r.1 ≠ 200 then
      (i + 1, Except.error (errorMessage r.1 r.2))
    else
      postBatches resp rest (i + 1) (metric ++ [b.length])

/-- `post_data`: batch the rows, then run the posting loop.  The first
component is the number of HTTP requests issued; the second is the raised
error or the returned metric. -/
def post_data (resp : Nat → Nat × String) (maxB : Nat) (data : List Row) :
    Nat × Except String (List Nat) :=
  postBatches resp (pyBatch maxB data) 0 []

/-- When every response from position `i` on is a 200, the loop consumes
all batches and returns the accumulated metric extended with each batch's
row count. -/
theorem postBatches_all_ok (resp : Nat → Nat × String) (bs : List (List Row))
    (i : Nat) (metric : List Nat)
    (h : ∀ j, j < bs.length → (resp (i + j)).1 = 200) :
    postBatches resp bs i metric
      = (i + bs.length, Except.ok (metric ++ bs.map List.length)) := by
  induction bs generalizing i metric with
  | nil => simp [postBatches]
  | cons b rest ih =>
    have h0 : (resp i).1 = 200 := by
      have := h 0 (by simp)
      simpa using this
    unfold postBatches
    rw [if_neg (by simp [h0])]
    rw [ih (i + 1) (metric ++ [b.length])]
    · simp only [List.length_cons, List.map_cons, List.append_assoc,
        List.singleton_append]
      rw [Prod.mk.injEq]
      exact ⟨by omega, rfl⟩
    · intro j hj
      have := h (j + 1) (by simp; omega)
      have harith : i + (j + 1) = i + 1 + j := by omega
      rw [harith] at this
      exact this

/-- When the response to request `i + k` is the first non-200 among the
remaining batches, the loop stops right there: it issues exactly `k + 1`
more requests and raises the error built from that response. -/
theorem postBatches_err (resp : Nat → Nat × String) (bs : List (List Row))
    (i : Nat) (metric : List Nat) (k : Nat)
    (hk : k < bs.length)
    (hpre : ∀ j, j < k → (resp (i + j)).1 = 200)
    (hbad : (resp (i + k)).1 ≠ 200) :
    postBatches resp bs i metric
      = (i + k + 1, Except.error (errorMessage (resp (i + k)).1 (resp (i + k)).2)) := by
  induction bs generalizing i metric k with
  | nil => simp at hk
  | cons b rest ih =>
    rcases k with _ | k
    · unfold postBatches
      rw [if_pos (by simpa using hbad)]
      simp
    · have h0 : (resp i).1 = 200 := by
        have := hpre 0 (by omega)
        simpa using this
      unfold postBatches
      rw [if_neg (by simp [h0])]
      have hpre2 : ∀ j, j < k → (resp (i + 1 + j)).1 = 200 := by
        intro j hj
        have := hpre (j + 1) (by omega)
        have harith : i + (j + 1) = i + 1 + j := by omega
        rw [harith] at this
        exact this
      have hbad2 : (resp (i + 1 + k)).1 ≠ 200 := by
        have harith : i + (k + 1) = i + 1 + k := by omega
        rw [harith] at hbad
        exact hbad
      rw [ih (i + 1) (metric ++ [b.length]) k (by simpa using Nat.lt_of_succ_lt_succ hk)
        hpre2 hbad2]
      have harith : i + 1 + k = i + (k + 1) := by omega
      rw [harith]

/-! ## Claim theorems -/

/-- C1: for every non-empty input row list and every positive ceiling,
concatenating the batches returned by `__batch` in order reproduces the
original row sequence exactly — every row appears in exactly one batch and
original order is preserved. -/
theorem pyBatch_flatten_eq_input (data : List Row) (maxB : Nat)
    (hne : data ≠ []) (hpos : 0 < maxB) :
    (pyBatch maxB data).flatten = data :=
  batchList_flatten rowStrSize maxB data (fun r _ => rowStrSize_pos r)

/-- Witness for C1 at three rows `{"col": "data"}` and ceiling 33. -/
theorem pyBatch_flatten_eq_input_witness :
    ([row0, row0, row0] : List Row) ≠ [] ∧ 0 < 33 ∧
      (pyBatch 33 [row0, row0, row0]).flatten = [row0, row0, row0] :=
  ⟨by decide, by decide,
    pyBatch_flatten_eq_input [row0, row0, row0] 33 (by decide) (by decide)⟩

/-- C3 counterexample: with "serialized size" read as the size of the
batch's canonical transmitted form (`json.dumps`, as `post_data` sends
it), the claim fails: at ceiling 33, `__batch` groups two rows
`{"col": "data"}` into one batch (internal accounting 15 + 15 = 30 ≤ 33),
but the transmitted form `[{"col": "data"}, {"col": "data"}]` is 34
characters long, and that batch is not a single oversized row. -/
theorem pyBatch_transmitted_ceiling_cex :
    ¬ (∀ b ∈ pyBatch 33 [row0, row0],
        (jsonDumpsBatch b).length ≤ 33 ∨
          ∃ r, b = [r] ∧ 33 < (jsonDumpsRow r).length) := by
  intro h
  have hmem : [row0, row0] ∈ pyBatch 33 [row0, row0] := by decide
  rcases h [row0, row0] hmem with hle | ⟨r, hr, _⟩
  · have h34 : (jsonDumpsBatch [row0, row0]).length = 34 := by decide
    omega
  · have hlen := congrArg List.length hr
    simp at hlen

/-- C3 (amended): for every input row list and positive ceiling, every
batch produced by `__batch` has combined size at most the ceiling — where
size is the measure the code actually enforces, the sum of the rows'
`len(str(row))` — except batches consisting of a single row whose own
`len(str(row))` already exceeds the ceiling.  (The transmitted
`json.dumps` form adds brackets, separators and JSON quoting on top of
this accounting and may exceed the ceiling, as the counterexample shows.) -/
theorem pyBatch_size_discipline (data : List Row) (maxB : Nat) (hpos : 0 < maxB) :
    ∀ b ∈ pyBatch maxB data,
      (b.map rowStrSize).sum ≤ maxB ∨ ∃ r, b = [r] ∧ maxB < rowStrSize r :=
  fun b hb => batchList_good rowStrSize maxB data b hb

/-- Witness for the amended C3 at three rows and ceiling 33. -/
theorem pyBatch_size_discipline_witness :
    0 < 33 ∧
      ∀ b ∈ pyBatch 33 [row0, row0, row0],
        (b.map rowStrSize).sum ≤ 33 ∨ ∃ r, b = [r] ∧ 33 < rowStrSize r :=
  ⟨by decide, pyBatch_size_discipline [row0, row0, row0] 33 (by decide)⟩

/-- C4: evaluation at the failing input.  With ceiling 0 and the single
row `{"col": "data"}`, `__batch` returns `[[], [row]]` — two batches, the
first empty — not the single batch `[[row]]` the claim (and the
repository's own test) expects. -/
theorem pyBatch_zero_ceiling_two_batches :
    pyBatch 0 [row0] = [[], [row0]] ∧ pyBatch 0 [row0] ≠ [[row0]] :=
  ⟨by decide, by decide⟩

/-- C5: evaluation at the failing input.  With three rows `{"col": "data"}`
(each `len(str(row)) = 15`) and ceiling 33, `__batch` returns two batches
`[[row, row], [row]]` — 15 + 15 = 30 ≤ 33 keeps the first two rows
together — not the three singleton batches the claim (and the repository's
own test) expects. -/
theorem pyBatch_ceiling33_two_batches :
    pyBatch 33 [row0, row0, row0] = [[row0, row0], [row0]] ∧
      pyBatch 33 [row0, row0, row0] ≠ [[row0], [row0], [row0]] :=
  ⟨by decide, by decide⟩

/-- C6: if the response to batch `k` is the first non-200, `post_data`
raises the single error kind carrying the status code and response body
(the `DataCollectorError` message of line 195), issues exactly `k + 1`
requests — so no later batch is attempted — and returns no partial
metric. -/
theorem post_data_fail_fast (resp : Nat → Nat × String) (maxB : Nat)
    (data : List Row) (k : Nat)
    (hk : k < (pyBatch maxB data).length)
    (hpre : ∀ j, j < k → (resp j).1 = 200)
    (hbad : (resp k).1 ≠ 200) :
    post_data resp maxB data
      = (k + 1, Except.error (errorMessage (resp k).1 (resp k).2)) := by
  unfold post_data
  have h := postBatches_err resp (pyBatch maxB data) 0 [] k hk
    (by intro j hj; simpa using hpre j hj) (by simpa using hbad)
  simpa using h

/-- Witness for C6: one batch, server answers 500 with body "boom". -/
theorem post_data_fail_fast_witness :
    0 < (pyBatch 33 [row0]).length ∧
      post_data (fun _ => (500, "boom")) 33 [row0]
        = (1, Except.error (errorMessage 500 "boom")) := by
  refine ⟨by decide, ?_⟩
  have h := post_data_fail_fast (fun _ => (500, "boom")) 33 [row0] 0 (by decide)
    (fun j hj => absurd hj (Nat.not_lt_zero j)) (by decide)
  simpa using h

/-- C7: when every batch's POST returns 200, `post_data` returns the list
whose i-th element is the number of rows of the i-th batch produced by
`__batch`, in batch order (and issues one request per batch). -/
theorem post_data_metric_lengths (resp : Nat → Nat × String) (maxB : Nat)
    (data : List Row)
    (h : ∀ j, j < (pyBatch maxB data).length → (resp j).1 = 200) :
    post_data resp maxB data
      = ((pyBatch maxB data).length,
          Except.ok ((pyBatch maxB data).map List.length)) := by
  unfold post_data
  have hall := postBatches_all_ok resp (pyBatch maxB data) 0 []
    (by intro j hj; simpa using h j hj)
  simpa using hall

/-- Witness for C7: three rows at ceiling 33 give batches of 2 and 1 rows,
so the metric is `[2, 1]`. -/
theorem post_data_metric_lengths_witness :
    post_data (fun _ => (200, "")) 33 [row0, row0, row0]
      = (2, Except.ok [2, 1]) := by
  have h := post_data_metric_lengths (fun _ => (200, "")) 33 [row0, row0, row0]
    (fun j hj => rfl)
  exact h.trans rfl

/-- C8: for every input list and positive ceiling, a row whose
`len(str(row))` exceeds the ceiling appears in the output of `__batch` as
its own singleton batch — it is never silently dropped. -/
theorem pyBatch_oversized_singleton (data : List Row) (maxB : Nat) (r : Row)
    (hpos : 0 < maxB) (hmem : r ∈ data) (hover : maxB < rowStrSize r) :
    [r] ∈ pyBatch maxB data :=
  batchList_oversized rowStrSize maxB r data hover hmem

/-- Witness for C8: ceiling 5 and the 15-character row `{"col": "data"}`. -/
theorem pyBatch_oversized_singleton_witness :
    0 < 5 ∧ row0 ∈ [row0] ∧ 5 < rowStrSize row0 ∧ [row0] ∈ pyBatch 5 [row0] :=
  ⟨by decide, by decide, by decide,
    pyBatch_oversized_singleton [row0] 5 row0 (by decide) (by decide) (by decide)⟩

/-- C9: with zero rows, `__batch` returns the empty batch list, and
`post_data` returns the empty metric without issuing any HTTP request
(request count 0), whatever the server would have answered. -/
theorem pyBatch_empty_input (resp : Nat → Nat × String) (maxB : Nat) :
    pyBatch maxB [] = [] ∧ post_data resp maxB [] = (0, Except.ok []) :=
  ⟨rfl, rfl⟩

/-- C10: in the output of `__batch`, every batch except possibly the first
is non-empty, and an empty batch occurs exactly when the input is
non-empty and the first row's `len(str(row))` already exceeds the
ceiling. -/
theorem pyBatch_empty_batch_iff_first_oversized (data : List Row) (maxB : Nat) :
    (∀ b ∈ (pyBatch maxB data).tail, b ≠ []) ∧
      ([] ∈ pyBatch maxB data ↔ ∃ r rest, data = r :: rest ∧ maxB < rowStrSize r) :=
  ⟨batchList_tail_ne rowStrSize maxB data, batchList_empty_mem rowStrSize maxB data⟩

/-! ## The signer

`__build_authorization_headers` formats the timestamp with
`strftime("%a, %d %b %Y %H:%M:%S GMT")`, builds the canonical string
`POST\n<content-length>\napplication/json\nx-ms-date:<date>\n/api/logs`,
HMAC-SHA-256s its UTF-8 bytes with the base64-decoded shared key, base64
encodes the digest and emits the four headers.  Everything below models
those library calls byte for byte; bytes are `Nat` values below 256 and
32-bit words are `Nat` values reduced modulo `2 ^ 32`. -/

/-- Truncation to a 32-bit word. -/
def w32 (n : Nat) : Nat := n % 4294967296

/-- Right rotation of a 32-bit word. -/
def rotr32 (n x : Nat) : Nat := w32 ((x >>> n) ||| (x <<< (32 - n)))

/-- The SHA-256 round constants (fractional parts of the cube roots of the
first 64 primes), written in decimal. -/
def sha256K : List Nat :=
  [1116352408, 1899447441, 3049323471, 3921009573,
   961987163, 1508970993, 2453635748, 2870763221,
   3624381080, 310598401, 607225278, 1426881987,
   1925078388, 2162078206, 2614888103, 3248222580,
   3835390401, 4022224774, 264347078, 604807628,
   770255983, 1249150122, 1555081692, 1996064986,
   2554220882, 2821834349, 2952996808, 3210313671,
   3336571891, 3584528711, 113926993, 338241895,
   666307205, 773529912, 1294757372, 1396182291,
   1695183700, 1986661051, 2177026350, 2456956037,
   2730485921, 2820302411, 3259730800, 3345764771,
   3516065817, 3600352804, 4094571909, 275423344,
   430227734, 506948616, 659060556, 883997877,
   958139571, 1322822218, 1537002063, 1747873779,
   1955562222, 2024104815, 2227730452, 2361852424,
   2428436474, 2756734187, 3204031479, 3329325298]

/-- The SHA-256 initial hash value (fractional parts of the square roots
of the first 8 primes), written in decimal. -/
def sha256H0 : List Nat :=
  [1779033703, 3144134277, 1013904242, 2773480762,
   1359893119, 2600822924, 528734635, 1541459225]

/-- Big-endian packing of bytes into 32-bit words, four at a time. -/
def toWords32 : List Nat → List Nat
  | a :: b :: c :: d :: rest => (((a * 256 + b) * 256 + c) * 256 + d) :: toWords32 rest
  | _ => []

/-- Extension of the 16-word message block to the 64-word schedule:
each step appends `w[i-16] + s0(w[i-15]) + w[i-7] + s1(w[i-2])`. -/
def extendW : Nat → List Nat → List Nat
  | 0, ws => ws
  | k + 1, ws =>
    let i := ws.length
    let w15 := ws.getD (i - 15) 0
    let w2 := ws.getD (i - 2) 0
    let w16 := ws.getD (i - 16) 0
    let w7 := ws.getD (i - 7) 0
    let s0 := rotr32 7 w15 ^^^ rotr32 18 w15 ^^^ (w15 >>> 3)
    let s1 := rotr32 17 w2 ^^^ rotr32 19 w2 ^^^ (w2 >>> 10)
    extendW k (ws ++ [w32 (w16 + s0 + w7 + s1)])

/-- One round of the SHA-256 compression function on the working state
`[a, b, c, d, e, f, g, h]`, fed one constant and one schedule word. -/
def sha256Round (st : List Nat) (kw : Nat × Nat) : List Nat :=
  match st with
  | [a, b, c, d, e, f, g, h] =>
    let s1 := rotr32 6 e ^^^ rotr32 11 e ^^^ rotr32 25 e
    let ch := (e &&& f) ^^^ ((e ^^^ 4294967295) &&& g)
    let temp1 := w32 (h + s1 + ch + kw.1 + kw.2)
    let s0 := rotr32 2 a ^^^ rotr32 13 a ^^^ rotr32 22 a
    let maj := (a &&& b) ^^^ (a &&& c) ^^^ (b &&& c)
    let temp2 := w32 (s0 + maj)
    [w32 (temp1 + temp2), a, b, c, w32 (d + temp1), e, f, g]
  | _ => st

/-- Compression of one 64-byte block into the running hash value. -/
def sha256Block (h : List Nat) (block : List Nat) : List Nat :=
  let ws := extendW 48 (toWords32 block)
  let st := (sha256K.zip ws).foldl sha256Round h
  List.zipWith (fun x y => w32 (x + y)) h st

/-- Splitting into 64-byte blocks, by structural recursion on a fuel
bound: one unit of fuel is spent per block, and `chunks64` supplies the
list's length, which always suffices since every block consumes at least
one element. -/
def chunksAux : Nat → List Nat → List (List Nat)
  | _, [] => []
  | 0, l => [l]
  | fuel + 1, l => l.take 64 :: chunksAux fuel (l.drop 64)

/-- The 64-byte blocks of a byte list (the input length is always a
multiple of 64 after padding). -/
def chunks64 (l : List Nat) : List (List Nat) := chunksAux l.length l

/-- Big-endian 8-byte encoding of the bit length. -/
def be64 (n : Nat) : List Nat :=
  [n / 72057594037927936 % 256, n / 281474976710656 % 256,
   n / 1099511627776 % 256, n / 4294967296 % 256,
   n / 16777216 % 256, n / 65536 % 256, n / 256 % 256, n % 256]

/-- SHA-256 padding: a `0x80` byte, zeros to 56 mod 64, then the bit
length, big-endian on 8 bytes. -/
def sha256Pad (msg : List Nat) : List Nat :=
  let l := msg.length
  msg ++ [128] ++ List.replicate ((119 - l % 64) % 64) 0 ++ be64 (8 * l)

/-- Big-endian serialization of 32-bit words back to bytes. -/
def wordsToBytes (ws : List Nat) : List Nat :=
  ws.foldr (fun w acc => [w / 16777216 % 256, w / 65536 % 256, w / 256 % 256, w % 256] ++ acc) []

/-- SHA-256 of a byte list. -/
def sha256 (msg : List Nat) : List Nat :=
  wordsToBytes ((chunks64 (sha256Pad msg)).foldl sha256Block sha256H0)

/-- HMAC-SHA-256 (`hmac.new(key, msg, digestmod=hashlib.sha256)`): the key
is hashed if longer than the 64-byte block, zero-padded to 64 bytes, and
combined with the `0x36`/`0x5c` pads. -/
def hmacSha256 (key msg : List Nat) : List Nat :=
  let k0 := if 64 < key.length then sha256 key else key
  let kp := k0 ++ List.replicate (64 - k0.length) 0
  sha256 ((kp.map (fun b => b ^^^ 92)) ++ sha256 ((kp.map (fun b => b ^^^ 54)) ++ msg))

/-- The base64 alphabet. -/
def b64Alphabet : String :=
  "ABCDEFGHIJKLMNOPQRSTUVWXYZabcdefghijklmnopqrstuvwxyz0123456789+/"

/-- The base64 digit for a 6-bit value. -/
def b64Digit (n : Nat) : Char := b64Alphabet.data.getD n 'A'

/-- `base64.b64encode`: groups of three bytes become four digits; a final
group of two or one byte is padded with `=` or `==`. -/
def b64encode : List Nat → String
  | a :: b :: c :: rest =>
    let n := (a * 256 + b) * 256 + c
    String.mk [b64Digit (n / 262144), b64Digit (n / 4096 % 64),
      b64Digit (n / 64 % 64), b64Digit (n % 64)] ++ b64encode rest
  | [a, b] =>
    let n := (a * 256 + b) * 256
    String.mk [b64Digit (n / 262144), b64Digit (n / 4096 % 64),
      b64Digit (n / 64 % 64)] ++ "="
  | [a] =>
    let n := a * 65536
    String.mk [b64Digit (n / 262144), b64Digit (n / 4096 % 64)] ++ "=="
  | [] => ""

/-- The 6-bit value of a base64 digit. -/
def b64Val (c : Char) : Nat :=
  if 'A' ≤ c ∧ c ≤ 'Z' then c.toNat - 65
  else if 'a' ≤ c ∧ c ≤ 'z' then c.toNat - 97 + 26
  else if '0' ≤ c ∧ c ≤ '9' then c.toNat - 48 + 52
  else if c = '+' then 62
  else if c = '/' then 63
  else 0

/-- `base64.b64decode` on well-formed input: four digits at a time, with
trailing `=` padding trimming the final group to two or one bytes. -/
def b64decodeChars : List Char → List Nat
  | a :: b :: c :: d :: rest =>
    let n := ((b64Val a * 64 + b64Val b) * 64 + b64Val c) * 64 + b64Val d
    let bytes :=
      if d = '=' then
        if c = '=' then [n / 65536] else [n / 65536, n / 256 % 256]
      else [n / 65536, n / 256 % 256, n % 256]
    bytes ++ b64decodeChars rest
  | _ => []

/-- `base64.b64decode` of a string. -/
def b64decode (s : String) : List Nat := b64decodeChars s.data

/-- UTF-8 encoding of one code point. -/
def utf8Char (n : Nat) : List Nat :=
  if n < 128 then [n]
  else if n < 2048 then [192 + n / 64, 128 + n % 64]
  else if n < 65536 then [224 + n / 4096, 128 + n / 64 % 64, 128 + n % 64]
  else [240 + n / 262144, 128 + n / 4096 % 64, 128 + n / 64 % 64, 128 + n % 64]

/-- `bytes(s, encoding="utf-8")`. -/
def utf8Bytes (s : String) : List Nat :=
  (s.data.map (fun c => utf8Char c.toNat)).flatten

/-- A naive `datetime.datetime`, to the second, as the signer uses it. -/
structure PyDateTime where
  year : Nat
  month : Nat
  day : Nat
  hour : Nat
  minute : Nat
  second : Nat
deriving Repr, DecidableEq

/-- The C-locale weekday abbreviations, indexed Sunday = 0 as Sakamoto's
algorithm yields. -/
def dayAbbrevs : List String := ["Sun", "Mon", "Tue", "Wed", "Thu", "Fri", "Sat"]

/-- The C-locale month abbreviations. -/
def monthAbbrevs : List String :=
  ["Jan", "Feb", "Mar", "Apr", "May", "Jun",
   "Jul", "Aug", "Sep", "Oct", "Nov", "Dec"]

/-- Day of the week (Sunday = 0) by Sakamoto's method, matching the
proleptic Gregorian calendar that `datetime` uses. -/
def weekdaySun0 (y m d : Nat) : Nat :=
  let t := [0, 3, 2, 5, 0, 3, 5, 1, 4, 6, 2, 4]
  let y2 := if m < 3 then y - 1 else y
  (y2 + y2 / 4 - y2 / 100 + y2 / 400 + t.getD (m - 1) 0 + d) % 7

/-- Zero-padded two-digit decimal, as `strftime`'s `%d`, `%H`, `%M`, `%S`
produce. -/
def pad2 (n : Nat) : String := if n < 10 then "0" ++ toString n else toString n

/-- `__get_xmsdate_str`:
`x_ms_date.strftime("%a, %d %b %Y %H:%M:%S GMT")`. -/
def get_xmsdate_str (dt : PyDateTime) : String :=
  dayAbbrevs.getD (weekdaySun0 dt.year dt.month dt.day) "" ++ ", "
    ++ pad2 dt.day ++ " " ++ monthAbbrevs.getD (dt.month - 1) "" ++ " "
    ++ toString dt.year ++ " "
    ++ pad2 dt.hour ++ ":" ++ pad2 dt.minute ++ ":" ++ pad2 dt.second ++ " GMT"

/-- `DEFAULT_CONTENT_TYPE` (line 21 of `datacollector.py`). -/
def DEFAULT_CONTENT_TYPE : String := "application/json"

/-- `DEFAULT_RESOURCE` (line 19 of `datacollector.py`). -/
def DEFAULT_RESOURCE : String := "/api/logs"

/-- `__build_authorization_headers`: the canonical string
`POST\n<content-length>\n<content-type>\nx-ms-date:<date>\n<resource>` is
HMAC-SHA-256ed under the base64-decoded shared key; the digest is base64
encoded into the `SharedKey` authorization value; the four headers are
returned in insertion order. -/
def build_authorization_headers (customer_id shared_key : String)
    (content_length : Nat) (log_type : String) (x_ms_date : PyDateTime) :
    List (String × String) :=
  let x_ms_date_str := get_xmsdate_str x_ms_date
  let x_headers := "x-ms-date:" ++ x_ms_date_str
  let string_to_hash := "POST\n" ++ toString content_length ++ "\n"
    ++ DEFAULT_CONTENT_TYPE ++ "\n" ++ x_headers ++ "\n" ++ DEFAULT_RESOURCE
  let bytes_to_hash := utf8Bytes string_to_hash
  let decoded_key := b64decode shared_key
  let encoded_hash := b64encode (hmacSha256 decoded_key bytes_to_hash)
  let authorization := "SharedKey " ++ customer_id ++ ":" ++ encoded_hash
  [("content-type", DEFAULT_CONTENT_TYPE),
   ("Authorization", authorization),
   ("Log-Type", log_type),
   ("x-ms-date", x_ms_date_str)]

set_option maxRecDepth 16000 in
/-- C2: for tenant `customer_id`, shared key `c2hhcmVkX2tleQ==`,
content length 1, log type `TestTable` and timestamp
2000-01-01T01:01:01 UTC, `__build_authorization_headers` returns the
Authorization header
`SharedKey customer_id:p9rltWgAbXzQtX8iV4P1E95fvA3n7imvysp16fPUXKE=`
and the x-ms-date header `Sat, 01 Jan 2000 01:01:01 GMT`, exactly as the
repository's signer test asserts. -/
theorem build_authorization_headers_test_vector :
    (build_authorization_headers "customer_id" "c2hhcmVkX2tleQ==" 1 "TestTable"
        ⟨2000, 1, 1, 1, 1, 1⟩).lookup "Authorization"
      = some "SharedKey customer_id:p9rltWgAbXzQtX8iV4P1E95fvA3n7imvysp16fPUXKE=" ∧
    (build_authorization_headers "customer_id" "c2hhcmVkX2tleQ==" 1 "TestTable"
        ⟨2000, 1, 1, 1, 1, 1⟩).lookup "x-ms-date"
      = some "Sat, 01 Jan 2000 01:01:01 GMT" := by
  constructor
  · decide
  · decide
